import Mathlib

/-!
Verification of the redirect dispatcher and ranking refresher
(`RedirectController`, latest revision, together with the static domain
registry in `config/domains` and the Redis-backed counters).

The TypeScript source is embedded shallowly:
* Redis is a record of integer counters, per-key TTLs and the two typed
  JSON slots the controller reads and writes
  (`redirect:best_links_map`, `redirect:sorted_domains`).
* The process-local fronting cache is the four mutable fields of the
  controller.
* `async` calls that may fail are modelled by explicit failure flags;
  a failing call takes the `catch` branch of the source.
* Analytics rows carry an already-parsed optional eCPM
  (`parseFloat(String(item.ecpm || 0))` is `Option.getD · 0`); absent
  string fields are the empty string, mirroring JS falsiness.
-/

namespace Redirect

/-- Static domain registry from `config/domains.ts`. -/
def domains : List String :=
  ["useuapp.com", "dopeaaps.com", "odiahoje.com", "esportesblog.com"]

/-- `generateRandomPath()` from `config/domains.ts`. -/
def generateRandomPath : String := "/random"

/-- One value of the `BestLinkMap` interface. -/
structure BestLinkInfo where
  url : String
  postId : String
  ecpm : ℚ
  deriving Repr, DecidableEq, Inhabited

/-- `BestLinkMap`: a JS object keyed by domain, i.e. an insertion-ordered
association list with distinct keys. -/
abbrev BestLinkMap := List (String × BestLinkInfo)

/-- The `SortedDomain` interface. -/
structure SortedDomain where
  domain : String
  url : String
  postId : String
  ecpm : ℚ
  deriving Repr, DecidableEq, Inhabited

/-- Lookup in an insertion-ordered association list (JS object read). -/
def alistLookup {β : Type} : List (String × β) → String → Option β
  | [], _ => none
  | (k, v) :: rest, d => if k = d then some v else alistLookup rest d

/-- JS object assignment: replace in place when the key exists, otherwise
append at the end (JS objects keep string keys in insertion order). -/
def alistSet {β : Type} : List (String × β) → String → β → List (String × β)
  | [], k, v => [(k, v)]
  | (k0, v0) :: rest, k, v =>
    if k0 = k then (k0, v) :: rest else (k0, v0) :: alistSet rest k v

/-- Shared-cache (Redis) state: the integer counters touched by `INCR`,
the TTLs set by `EXPIRE`/`SET ... EX`, and the two JSON values the
controller stores (kept typed; JSON round-tripping is assumed faithful). -/
structure RedisState where
  counters : List (String × Nat)
  ttls : List (String × Nat)
  bestLinksMapVal : Option BestLinkMap
  bestLinksMapTtl : Option Nat
  sortedDomainsVal : Option (List SortedDomain)
  sortedDomainsTtl : Option Nat
  deriving Repr, DecidableEq

def DOMAIN_COUNTER_KEY : String := "redirect:domain:counter"

def BEST_LINKS_MAP_KEY : String := "redirect:best_links_map"

def SORTED_DOMAINS_KEY : String := "redirect:sorted_domains"

def VISITOR_PREFIX : String := "visitor"

/-- Atomic `INCR`: missing keys count as 0, the post-increment value is
returned. -/
def redisIncr (rs : RedisState) (key : String) : Nat × RedisState :=
  let v := (alistLookup rs.counters key).getD 0 + 1
  (v, { rs with counters := alistSet rs.counters key v })

/-- `EXPIRE key seconds`. -/
def redisExpire (rs : RedisState) (key : String) (seconds : Nat) : RedisState :=
  { rs with ttls := alistSet rs.ttls key seconds }

/-- Process-local fronting cache fields of the controller. -/
structure LocalCache where
  bestLinksMapCache : Option BestLinkMap
  bestLinksMapCacheTime : Nat
  sortedDomainsCache : Option (List SortedDomain)
  sortedDomainsCacheTime : Nat
  deriving Repr, DecidableEq

/-- `CACHE_TTL_MS = 60000`. -/
def CACHE_TTL_MS : Nat := 60000

/-- `getVisitorCountKey`: `visitor_count:<ip>:<hour-of-day>`. -/
def getVisitorCountKey (ip : String) (hour : Nat) : String :=
  VISITOR_PREFIX ++ "_count:" ++ ip ++ ":" ++ toString hour

/-- `getAndIncrementVisitorDomainCount`: atomic INCR of the visitor key;
TTL 3600 is set only when the post-increment value is 1.  A failing
Redis call takes the `catch` branch and yields 1 without touching state. -/
def getAndIncrementVisitorDomainCount (fails : Bool) (ip : String) (hour : Nat)
    (rs : RedisState) : Nat × RedisState :=
  if fails then (1, rs)
  else
    let key := getVisitorCountKey ip hour
    let out := redisIncr rs key
    if out.1 = 1 then (out.1, redisExpire out.2 key 3600) else out

/-- `getNextRandomDomain`: INCR the global domain counter and index the
registry at `(counter - 1) % domains.length`.  On a Redis failure the
`catch` branch picks `domains[randIdx]` for a random `randIdx`. -/
def getNextRandomDomain (fails : Bool) (randIdx : Nat) (rs : RedisState) :
    String × RedisState :=
  if fails then (domains.getD randIdx "", rs)
  else
    let out := redisIncr rs DOMAIN_COUNTER_KEY
    (domains.getD ((out.1 - 1) % domains.length) "", out.2)

def TRAFFIC_COUNTER_KEY : String := "redirect:traffic:counter"

/-- `getAndIncrementCounter` of the older 60/40 dispatcher revision: INCR
`redirect:traffic:counter` and reset the key to 1 once the value exceeds
1,000,000. -/
def getAndIncrementCounter (rs : RedisState) : Nat × RedisState :=
  let out := redisIncr rs TRAFFIC_COUNTER_KEY
  if 1000000 < out.1 then
    (1, { out.2 with counters := alistSet out.2.counters TRAFFIC_COUNTER_KEY 1 })
  else out

/-- `getBestLinksMap`, shared-cache leg: runs when the local copy is
absent or stale.  A failing `GET` (or an absent key) returns the last
local copy. -/
def getBestLinksMapShared (now : Nat) (fails : Bool) (lc : LocalCache)
    (rs : RedisState) : Option BestLinkMap × LocalCache :=
  if fails then (lc.bestLinksMapCache, lc)
  else
    match rs.bestLinksMapVal with
    | some v =>
      (some v, { lc with bestLinksMapCache := some v, bestLinksMapCacheTime := now })
    | none => (lc.bestLinksMapCache, lc)

/-- `getBestLinksMap`: local copy when fresh, otherwise the shared leg. -/
def getBestLinksMap (now : Nat) (fails : Bool) (lc : LocalCache)
    (rs : RedisState) : Option BestLinkMap × LocalCache :=
  match lc.bestLinksMapCache with
  | some c =>
    if now - lc.bestLinksMapCacheTime < CACHE_TTL_MS then (some c, lc)
    else getBestLinksMapShared now fails lc rs
  | none => getBestLinksMapShared now fails lc rs

/-- `getSortedDomains`, shared-cache leg. -/
def getSortedDomainsShared (now : Nat) (fails : Bool) (lc : LocalCache)
    (rs : RedisState) : List SortedDomain × LocalCache :=
  if fails then (lc.sortedDomainsCache.getD [], lc)
  else
    match rs.sortedDomainsVal with
    | some v =>
      (v, { lc with sortedDomainsCache := some v, sortedDomainsCacheTime := now })
    | none => (lc.sortedDomainsCache.getD [], lc)

/-- `getSortedDomains`: the local copy when non-empty and fresh,
otherwise the shared leg. -/
def getSortedDomains (now : Nat) (fails : Bool) (lc : LocalCache)
    (rs : RedisState) : List SortedDomain × LocalCache :=
  match lc.sortedDomainsCache with
  | some c =>
    if 0 < c.length ∧ now - lc.sortedDomainsCacheTime < CACHE_TTL_MS then (c, lc)
    else getSortedDomainsShared now fails lc rs
  | none => getSortedDomainsShared now fails lc rs

/-- JS truthiness of an optional string: `undefined` and `""` are falsy. -/
def jsTruthy : Option String → Bool
  | none => false
  | some s => !(s = "")

/-- `a || d` for an optional string `a` (JS falsy fallback). -/
def jsOr (o : Option String) (d : String) : String :=
  match o with
  | some s => if s = "" then d else s
  | none => d

/-- Whether `pat` is a prefix of `s` (character lists). -/
def isPrefixList : List Char → List Char → Bool
  | [], _ => true
  | _ :: _, [] => false
  | c :: cs, d :: ds => c = d && isPrefixList cs ds

/-- Whether `s` contains `pat` as a contiguous sublist. -/
def containsSub : List Char → List Char → Bool
  | [], pat => isPrefixList pat []
  | c :: rest, pat => isPrefixList pat (c :: rest) || containsSub rest pat

/-- Substring test (`String.prototype.includes` for a fixed pattern). -/
def strContains (s pat : String) : Bool := containsSub s.data pat.data

/-- The request fields the dispatch path reads. -/
structure Req where
  path : String
  url : String
  xForwardedFor : Option String
  remoteAddress : Option String
  language : Option String
  utm_source : Option String
  utm_medium : Option String
  utm_campaign : Option String
  utm_term : Option String
  utm_content : Option String
  fbclid : Option String
  gclid : Option String
  deriving Repr, DecidableEq

/-- Step 1 short-circuit: path or raw URL contains `favicon`. -/
def isFaviconReq (req : Req) : Bool :=
  strContains req.path "favicon" || strContains req.url "favicon"

/-- Client IP: first comma token of `X-Forwarded-For`, trimmed, else the
socket address, else `"unknown"` (JS `||` chains). -/
def getClientIp (req : Req) : String :=
  jsOr (req.xForwardedFor.map fun s => ((s.splitOn ",").headD "").trim)
    (jsOr req.remoteAddress "unknown")

/-- The `(domain, redirectUrl, linkId, logType)` quadruple Step 5 binds. -/
structure Selection where
  domain : String
  redirectUrl : String
  linkId : String
  logType : String
  deriving Repr, DecidableEq

/-- Step 5 target selection, verbatim from the `redirect` method:
ranked list first, registry fallback when the ranked list is empty,
`/random` spill otherwise. -/
def selectTarget (visitNumber : Nat) (sortedDomains : List SortedDomain)
    (now : Nat) (bestMapFails spillFails : Bool) (randIdx : Nat)
    (lc : LocalCache) (rs : RedisState) :
    Selection × LocalCache × RedisState :=
  if 0 < sortedDomains.length ∧ visitNumber ≤ sortedDomains.length then
    let sd := sortedDomains.getD (visitNumber - 1) default
    (⟨sd.domain, sd.url, "best_" ++ sd.domain ++ "_" ++ sd.postId, "BEST LINK"⟩, lc, rs)
  else if sortedDomains.length = 0 ∧ visitNumber ≤ domains.length then
    let domain := domains.getD (visitNumber - 1) ""
    let bm := getBestLinksMap now bestMapFails lc rs
    match alistLookup (bm.1.getD []) domain with
    | some info =>
      (⟨domain, info.url, "best_" ++ domain ++ "_" ++ info.postId, "BEST LINK"⟩, bm.2, rs)
    | none =>
      (⟨domain, "https://" ++ domain ++ generateRandomPath, "fallback_" ++ domain,
        "RANDOM LINK"⟩, bm.2, rs)
  else
    let nxt := getNextRandomDomain spillFails randIdx rs
    (⟨nxt.1, "https://" ++ nxt.1 ++ generateRandomPath, "random_" ++ nxt.1,
      "RANDOM LINK"⟩, lc, nxt.2)

/-- The components of a WHATWG `URL` the controller touches. -/
structure Url where
  host : String
  pathname : String
  search : String
  deriving Repr, DecidableEq

/-- `URL.prototype.toString` for the components modelled. -/
def urlToString (u : Url) : String := "https://" ++ u.host ++ u.pathname ++ u.search

/-- `new URL(s)` for `https` URLs; `none` models the thrown `TypeError`.
Implemented over character lists so that it evaluates inside the kernel. -/
def parseUrl (s : String) : Option Url :=
  if isPrefixList "https://".data s.data then
    let rest := s.data.drop 8
    let host := rest.takeWhile fun c => !(c = '/') && !(c = '?')
    if host = [] then none
    else
      let afterHost := rest.drop host.length
      let pathPart := afterHost.takeWhile fun c => !(c = '?')
      some ⟨String.mk host,
        if pathPart = [] then "/" else String.mk pathPart,
        String.mk (afterHost.drop pathPart.length)⟩
  else none

/-- The hard-coded inverted-language domain list of the latest revision. -/
def invertedLangDomains : List String :=
  ["appmobile4u.com", "appcombos.com", "informanoticia.com", "buscaapp.com.br",
   "lavoriinitalia.com", "cincosete.com"]

/-- `invertedLangDomains.some(d => url.hostname.includes(d))`. -/
def isInvertedHost (host : String) : Bool :=
  invertedLangDomains.any fun d => strContains host d

/-- Step 6 on the parsed URL: the pathname mutations of the language
block, in the source's branch order. -/
def applyLanguage (language : Option String) (u : Url) : Url :=
  if isInvertedHost u.host then
    if jsTruthy language = false ∨ language = some "en" then
      { u with pathname := "/en" ++ u.pathname }
    else if ¬ language = some "pt" then
      { u with pathname := "/" ++ language.getD "" ++ u.pathname }
    else u
  else
    if jsTruthy language then
      { u with pathname := "/" ++ language.getD "" ++ u.pathname }
    else u

/-- Whether the language block reassigns `redirectUrl` (the source only
re-serialises the URL in the branches that mutate it). -/
def langAssigns (language : Option String) (u : Url) : Bool :=
  if isInvertedHost u.host then
    if jsTruthy language = false ∨ language = some "en" then true
    else decide (¬ language = some "pt")
  else jsTruthy language

/-- The `redirectUrl` string after Step 6: re-serialised when mutated,
the original string otherwise. -/
def langAssign (language : Option String) (u : Url) (orig : String) : String :=
  if langAssigns language u then urlToString (applyLanguage language u) else orig

/-- Uppercase hex digit. -/
def hexDigitChar (n : Nat) : Char :=
  if n < 10 then Char.ofNat (48 + n) else Char.ofNat (55 + n)

/-- UTF-8 bytes of a code point. -/
def utf8Bytes (n : Nat) : List Nat :=
  if n < 128 then [n]
  else if n < 2048 then [192 + n / 64, 128 + n % 64]
  else if n < 65536 then [224 + n / 4096, 128 + (n / 64) % 64, 128 + n % 64]
  else [240 + n / 262144, 128 + (n / 4096) % 64, 128 + (n / 64) % 64, 128 + n % 64]

/-- `%XX` escape of one byte. -/
def encodeByteHex (b : Nat) : String :=
  String.mk ['%', hexDigitChar (b / 16 % 16), hexDigitChar (b % 16)]

/-- Characters `encodeURIComponent` leaves intact. -/
def isUnreservedChar (c : Char) : Bool :=
  c.isAlphanum || c = '-' || c = '_' || c = '.' || c = '!' || c = '~' ||
    c = '*' || c = Char.ofNat 39 || c = '(' || c = ')'

/-- Percent-encoding model shared by `encodeURIComponent` and the
`URLSearchParams` serialiser. -/
def encodeURIComponent (s : String) : String :=
  String.join (s.data.map fun c =>
    if isUnreservedChar c then String.singleton c
    else String.join ((utf8Bytes c.toNat).map encodeByteHex))

/-- `URLSearchParams.toString`: `k=v` pairs joined by `&`. -/
def serializeParams : List (String × String) → String
  | [] => ""
  | (k, v) :: [] => k ++ "=" ++ encodeURIComponent v
  | (k, v) :: p :: rest =>
    k ++ "=" ++ encodeURIComponent v ++ "&" ++ serializeParams (p :: rest)

/-- Step 7 parameter bag: defaulted `utm_source`/`utm_medium`/
`utm_campaign`, then the pass-through parameters when truthy. -/
def buildUtmParams (req : Req) (linkId : String) : List (String × String) :=
  [("utm_source", jsOr req.utm_source "redron"),
   ("utm_medium", jsOr req.utm_medium "broadcast"),
   ("utm_campaign", jsOr req.utm_campaign (if linkId = "" then "direct" else linkId))]
  ++ (if jsTruthy req.utm_term then [("utm_term", req.utm_term.getD "")] else [])
  ++ (if jsTruthy req.utm_content then [("utm_content", req.utm_content.getD "")] else [])
  ++ (if jsTruthy req.fbclid then [("fbclid", req.fbclid.getD "")] else [])
  ++ (if jsTruthy req.gclid then [("gclid", req.gclid.getD "")] else [])

/-- Per-request environment: clock values, the failure injections for
the cache calls, the `Math.random` draw of the spill `catch` branch and
an unexpected exception anywhere in Steps 2 to 9. -/
structure Env where
  now : Nat
  hour : Nat
  visitorIncrFails : Bool
  sortedGetFails : Bool
  bestMapGetFails : Bool
  spillIncrFails : Bool
  randIdx : Nat
  unexpectedThrow : Bool
  deriving Repr, DecidableEq

/-- The two response shapes of the dispatch endpoint. -/
inductive Response where
  | noContent : Response
  | redirect : String → Response
  deriving Repr, DecidableEq

def EMERGENCY_FALLBACK_URL : String := "https://useuapp.com/random"

/-- Steps 2 to 5 of `redirect`: identify the visitor, advance the
visitor cursor, load the rankings, select the target. -/
def dispatchSelection (req : Req) (env : Env) (lc : LocalCache) (rs : RedisState) :
    Selection × LocalCache × RedisState :=
  let clientIp := getClientIp req
  let visit := getAndIncrementVisitorDomainCount env.visitorIncrFails clientIp env.hour rs
  let sorted := getSortedDomains env.now env.sortedGetFails lc visit.2
  selectTarget visit.1 sorted.1 env.now env.bestMapGetFails env.spillIncrFails
    env.randIdx sorted.2 visit.2

/-- The `redirect` request handler.  The favicon short-circuit answers
204; any exception inside the `try` (the injected `unexpectedThrow`, or
`new URL` rejecting the selected target) is caught and answered with a
302 to the emergency fallback; otherwise Steps 6 and 7 produce the final
URL.  The fire-and-forget click upsert and `recent:<ip>` memo do not
affect the response and are not modelled. -/
def redirectHandler (req : Req) (env : Env) (lc : LocalCache) (rs : RedisState) :
    Response × LocalCache × RedisState :=
  if isFaviconReq req then (Response.noContent, lc, rs)
  else if env.unexpectedThrow then (Response.redirect EMERGENCY_FALLBACK_URL, lc, rs)
  else
    let sel := dispatchSelection req env lc rs
    match parseUrl sel.1.redirectUrl with
    | none => (Response.redirect EMERGENCY_FALLBACK_URL, sel.2.1, sel.2.2)
    | some url =>
      let redirectUrl2 := langAssign req.language url sel.1.redirectUrl
      let utmString := serializeParams (buildUtmParams req sel.1.linkId)
      let separator := if strContains redirectUrl2 "?" then "&" else "?"
      (Response.redirect (redirectUrl2 ++ separator ++ utmString), sel.2.1, sel.2.2)

/-- One aggregation row as the refresher reads it: `domain` and
`custom_value` are empty when absent (JS falsiness), `ecpm` is the
parsed numeric value when present. -/
structure AnalyticsRow where
  domain : String
  custom_value : String
  ecpm : Option ℚ
  deriving Repr, DecidableEq

/-- The `BestLinkMap` value built for one winning row:
`https://<domain>/?p=<encodeURIComponent(postId)>`. -/
def mkBestLinkEntry (domain postId : String) (ecpm : ℚ) : BestLinkInfo :=
  ⟨"https://" ++ domain ++ "/?p=" ++ encodeURIComponent postId, postId, ecpm⟩

/-- One iteration of the `for (const item of data)` loop building
`bestByDomain`: skip rows with a falsy domain or `custom_value`, replace
only when the new eCPM is strictly greater. -/
def bestByDomainStep (acc : BestLinkMap) (item : AnalyticsRow) : BestLinkMap :=
  if item.domain = "" ∨ item.custom_value = "" then acc
  else
    let ecpm := item.ecpm.getD 0
    match alistLookup acc item.domain with
    | none => alistSet acc item.domain (mkBestLinkEntry item.domain item.custom_value ecpm)
    | some e =>
      if e.ecpm < ecpm then
        alistSet acc item.domain (mkBestLinkEntry item.domain item.custom_value ecpm)
      else acc

/-- The `bestByDomain` map computed by `executeProcessInternal`. -/
def buildBestByDomain (data : List AnalyticsRow) : BestLinkMap :=
  data.foldl bestByDomainStep []

/-- `Object.entries` shape used to build the sorted list. -/
def toSortedDomain (p : String × BestLinkInfo) : SortedDomain :=
  ⟨p.1, p.2.url, p.2.postId, p.2.ecpm⟩

/-- Stable insertion for the descending-eCPM sort, matching the stable
JS `sort((a, b) => b.ecpm - a.ecpm)`: the inserted element (earlier in
the original list) stays ahead of every element whose eCPM is not
strictly greater, so ties keep the original order. -/
def insertByEcpmDesc (x : SortedDomain) : List SortedDomain → List SortedDomain
  | [] => [x]
  | y :: ys => if y.ecpm ≤ x.ecpm then x :: y :: ys else y :: insertByEcpmDesc x ys

/-- Descending-eCPM sort of the map entries. -/
def sortByEcpmDesc : List SortedDomain → List SortedDomain
  | [] => []
  | x :: xs => insertByEcpmDesc x (sortByEcpmDesc xs)

/-- A `redirects_links` document: `created_at` is set on insertion and
orders the `getAllLinks` scan. -/
structure LinkRecord where
  id : Nat
  domain : String
  url : String
  status : Bool
  created_at : Nat
  deriving Repr, DecidableEq

/-- Insertion step of the newest-first `sort({created_at: -1})`.  MongoDB
leaves the order of equal keys unspecified; the model keeps the stored
order on ties. -/
def insertByCreatedDesc (x : LinkRecord) : List LinkRecord → List LinkRecord
  | [] => [x]
  | y :: ys =>
    if y.created_at ≤ x.created_at then x :: y :: ys else y :: insertByCreatedDesc x ys

/-- `sort({created_at: -1})` over the collection. -/
def sortByCreatedDesc : List LinkRecord → List LinkRecord
  | [] => []
  | x :: xs => insertByCreatedDesc x (sortByCreatedDesc xs)

/-- `getAllLinks(limit, offset)`:
`find({}).skip(offset).limit(limit).sort({created_at: -1})` — the server
sorts newest-first, then skips, then caps the result, whatever the
cursor-modifier order. -/
def getAllLinks (links : List LinkRecord) (limit offset : Nat) : List LinkRecord :=
  ((sortByCreatedDesc links).drop offset).take limit

/-- `updateLink(id, { status: false })`: deactivate the record with the
given id. -/
def deactivateById (links : List LinkRecord) (id : Nat) : List LinkRecord :=
  links.map fun l => if l.id = id then { l with status := false } else l

/-- Phase 1 of the MongoDB reconciliation: scan `getAllLinks(1000, 0)` —
only the 1000 newest records by `created_at` — and set `status = false`
on each scanned record that is active; actives outside that window are
not touched. -/
def deactivateScanned (links : List LinkRecord) : List LinkRecord :=
  (getAllLinks links 1000 0).foldl
    (fun acc l => if l.status then deactivateById acc l.id else acc) links

/-- `getLinkByDomainAndUrl` followed by `updateLink(status: true)` on the
first match, if any. -/
def activateFirst : List LinkRecord → String → String → Option (List LinkRecord)
  | [], _, _ => none
  | l :: rest, domain, url =>
    if l.domain = domain ∧ l.url = url then some ({ l with status := true } :: rest)
    else (activateFirst rest domain url).map (l :: ·)

/-- Phase 2 per entry: activate the existing `(domain, url)` record or
create a fresh active one stamped `created_at = now`. -/
def upsertActive (links : List LinkRecord) (nextId now : Nat) (domain url : String) :
    List LinkRecord × Nat :=
  match activateFirst links domain url with
  | some links2 => (links2, nextId)
  | none => (links ++ [⟨nextId, domain, url, true, now⟩], nextId + 1)

/-- The full MongoDB reconciliation of one refresh. -/
def reconcileLinks (links : List LinkRecord) (nextId now : Nat) (best : BestLinkMap) :
    List LinkRecord × Nat :=
  best.foldl (fun acc p => upsertActive acc.1 acc.2 now p.1 p.2.url)
    (deactivateScanned links, nextId)

/-- All state `executeProcessInternal` can touch: the shared cache, the
process-local fronting cache and the link store. -/
structure RefresherState where
  rs : RedisState
  lc : LocalCache
  links : List LinkRecord
  nextId : Nat
  deriving Repr, DecidableEq

/-- `executeProcessInternal` on an aggregation result: empty results
return early; a non-empty `bestByDomain` is published to both Redis keys
with TTL 3600 and installed into the local cache with a fresh timestamp;
the link store is then reconciled. -/
def executeProcessInternal (data : List AnalyticsRow) (now : Nat)
    (st : RefresherState) : Option BestLinkMap × RefresherState :=
  if data.length = 0 then (none, st)
  else
    let bestByDomain := buildBestByDomain data
    let st1 :=
      if 0 < bestByDomain.length then
        let sortedDomains := sortByEcpmDesc (bestByDomain.map toSortedDomain)
        { st with
          rs := { st.rs with
                  bestLinksMapVal := some bestByDomain, bestLinksMapTtl := some 3600,
                  sortedDomainsVal := some sortedDomains, sortedDomainsTtl := some 3600 },
          lc := { st.lc with
                  bestLinksMapCache := some bestByDomain, bestLinksMapCacheTime := now,
                  sortedDomainsCache := some sortedDomains,
                  sortedDomainsCacheTime := now } }
      else st
    let rec2 := reconcileLinks st1.links st1.nextId now bestByDomain
    (some bestByDomain, { st1 with links := rec2.1, nextId := rec2.2 })

/-- Specification-side view for claim C2: the `(postId, ecpm)` pairs of
the rows of one domain that survive the skip test, in row order. -/
def contribPairs (d : String) (data : List AnalyticsRow) : List (String × ℚ) :=
  data.filterMap fun item =>
    if item.domain = d ∧ ¬ item.domain = "" ∧ ¬ item.custom_value = "" then
      some (item.custom_value, item.ecpm.getD 0)
    else none

/-- Left fold that keeps the current winner and replaces it only on a
strictly greater eCPM (ties keep the earlier pair). -/
def pickBestFrom (acc : Option (String × ℚ)) : List (String × ℚ) → Option (String × ℚ)
  | [] => acc
  | p :: rest =>
    match acc with
    | none => pickBestFrom (some p) rest
    | some q => pickBestFrom (if q.2 < p.2 then some p else some q) rest

/-- The winning `(postId, ecpm)` pair of a list, first-seen on ties. -/
def pickBest (l : List (String × ℚ)) : Option (String × ℚ) := pickBestFrom none l

/-! ## Association-list lemmas -/

theorem alistLookup_alistSet {β : Type} (l : List (String × β)) (k d : String) (v : β) :
    alistLookup (alistSet l k v) d = if k = d then some v else alistLookup l d := by
  induction l with
  | nil => by_cases h : k = d <;> simp [alistSet, alistLookup, h]
  | cons p rest ih =>
    obtain ⟨k0, v0⟩ := p
    by_cases h0 : k0 = k
    · subst h0
      by_cases h : k0 = d <;> simp [alistSet, alistLookup, h]
    · by_cases h : k0 = d
      · subst h
        have hkd : ¬ k = k0 := fun hc => h0 hc.symm
        simp [alistSet, alistLookup, h0, hkd]
      · simp [alistSet, alistLookup, h0, h, ih]

theorem mem_keys_alistSet {β : Type} (l : List (String × β)) (k x : String) (v : β)
    (h : x ∈ (alistSet l k v).map Prod.fst) : x ∈ l.map Prod.fst ∨ x = k := by
  induction l with
  | nil => simpa [alistSet] using h
  | cons p rest ih =>
    obtain ⟨k0, v0⟩ := p
    by_cases h0 : k0 = k
    · subst h0
      have he : alistSet ((k0, v0) :: rest) k0 v = (k0, v) :: rest := by
        simp [alistSet]
      rw [he, List.map_cons, List.mem_cons] at h
      rcases h with h | h
      · exact Or.inr h
      · exact Or.inl (List.mem_cons_of_mem _ h)
    · have he : alistSet ((k0, v0) :: rest) k v = (k0, v0) :: alistSet rest k v := by
        simp [alistSet, h0]
      rw [he, List.map_cons, List.mem_cons] at h
      rcases h with h | h
      · exact Or.inl (by simp [h])
      · rcases ih h with h2 | h2
        · exact Or.inl (List.mem_cons_of_mem _ h2)
        · exact Or.inr h2

theorem nodup_keys_alistSet {β : Type} (l : List (String × β)) (k : String) (v : β)
    (h : (l.map Prod.fst).Nodup) : ((alistSet l k v).map Prod.fst).Nodup := by
  induction l with
  | nil => simp [alistSet]
  | cons p rest ih =>
    obtain ⟨k0, v0⟩ := p
    simp only [List.map_cons, List.nodup_cons] at h
    by_cases h0 : k0 = k
    · subst h0
      simpa [alistSet] using h
    · simp only [alistSet, if_neg h0, List.map_cons, List.nodup_cons]
      refine ⟨fun hc => ?_, ih h.2⟩
      rcases mem_keys_alistSet rest k k0 v hc with h2 | h2
      · exact h.1 h2
      · exact h0 h2

/-! ## Claim C5 -/

/-- Claim C5: every dispatch advances the visitor cursor by an atomic
increment of `visitor_count:<ip>:<hourOfDay>`; a TTL of 3600 seconds is
set exactly when the post-increment value is 1 and is untouched on later
increments; the dispatched visit number is the post-increment value; no
other key is affected. -/
theorem claim_C5 (ip : String) (hour : Nat) (rs : RedisState) :
    (getAndIncrementVisitorDomainCount false ip hour rs).1
        = (alistLookup rs.counters (getVisitorCountKey ip hour)).getD 0 + 1
    ∧ alistLookup (getAndIncrementVisitorDomainCount false ip hour rs).2.counters
        (getVisitorCountKey ip hour)
        = some ((alistLookup rs.counters (getVisitorCountKey ip hour)).getD 0 + 1)
    ∧ alistLookup (getAndIncrementVisitorDomainCount false ip hour rs).2.ttls
        (getVisitorCountKey ip hour)
        = (if (alistLookup rs.counters (getVisitorCountKey ip hour)).getD 0 + 1 = 1
           then some 3600 else alistLookup rs.ttls (getVisitorCountKey ip hour))
    ∧ getVisitorCountKey ip hour = "visitor_count:" ++ ip ++ ":" ++ toString hour
    ∧ (∀ k2, ¬ k2 = getVisitorCountKey ip hour →
        alistLookup (getAndIncrementVisitorDomainCount false ip hour rs).2.counters k2
            = alistLookup rs.counters k2
        ∧ alistLookup (getAndIncrementVisitorDomainCount false ip hour rs).2.ttls k2
            = alistLookup rs.ttls k2) := by
  by_cases hv : (alistLookup rs.counters (getVisitorCountKey ip hour)).getD 0 + 1 = 1
  · refine ⟨?_, ?_, ?_, rfl, ?_⟩
    · simp [getAndIncrementVisitorDomainCount, redisIncr, hv]
    · simp [getAndIncrementVisitorDomainCount, redisIncr, redisExpire, hv,
        alistLookup_alistSet]
    · simp [getAndIncrementVisitorDomainCount, redisIncr, redisExpire, hv,
        alistLookup_alistSet]
    · intro k2 hk2
      have hne : ¬ getVisitorCountKey ip hour = k2 := fun hc => hk2 hc.symm
      constructor
      · simp [getAndIncrementVisitorDomainCount, redisIncr, redisExpire, hv,
          alistLookup_alistSet, hne]
      · simp [getAndIncrementVisitorDomainCount, redisIncr, redisExpire, hv,
          alistLookup_alistSet, hne]
  · refine ⟨?_, ?_, ?_, rfl, ?_⟩
    · simp [getAndIncrementVisitorDomainCount, redisIncr, hv]
    · simp [getAndIncrementVisitorDomainCount, redisIncr, hv, alistLookup_alistSet]
    · simp [getAndIncrementVisitorDomainCount, redisIncr, hv, alistLookup_alistSet]
    · intro k2 hk2
      have hne : ¬ getVisitorCountKey ip hour = k2 := fun hc => hk2 hc.symm
      constructor
      · simp [getAndIncrementVisitorDomainCount, redisIncr, hv,
          alistLookup_alistSet, hne]
      · simp [getAndIncrementVisitorDomainCount, redisIncr, hv]

/-- Witness for claim C5 at a concrete state: a first visit returns 1
and sets the TTL; an unrelated key keeps its TTL. -/
theorem claim_C5_witness :
    (getAndIncrementVisitorDomainCount false "1.2.3.4" 7
        (RedisState.mk [] [("other", 99)] none none none none)).1 = 1
    ∧ alistLookup (getAndIncrementVisitorDomainCount false "1.2.3.4" 7
        (RedisState.mk [] [("other", 99)] none none none none)).2.ttls
        (getVisitorCountKey "1.2.3.4" 7) = some 3600
    ∧ alistLookup (getAndIncrementVisitorDomainCount false "1.2.3.4" 7
        (RedisState.mk [] [("other", 99)] none none none none)).2.ttls
        "other" = some 99 := by
  have h := claim_C5 "1.2.3.4" 7 (RedisState.mk [] [("other", 99)] none none none none)
  refine ⟨?_, ?_, ?_⟩
  · exact h.1.trans (by decide)
  · exact h.2.2.1.trans (by decide)
  · exact ((h.2.2.2.2 "other" (by decide)).2).trans (by decide)

/-! ## Claim C4 -/

/-- Counterexample to claim C4 as stated: with the spill counter
`redirect:domain:counter` at 1,000,000, the next spill INCR produces
1,000,001 and the stored counter stays at 1,000,001 — it is not reset
to 1 (the selected domain is still `registry[0]` because
1,000,000 mod 4 = 0). -/
theorem claim_C4_counterexample :
    (getNextRandomDomain false 0
        (RedisState.mk [(DOMAIN_COUNTER_KEY, 1000000)] [] none none none none)).1
      = "useuapp.com"
    ∧ alistLookup (getNextRandomDomain false 0
        (RedisState.mk [(DOMAIN_COUNTER_KEY, 1000000)] [] none none none none)).2.counters
        DOMAIN_COUNTER_KEY = some 1000001
    ∧ ¬ (1000001 : Nat) = 1 := by
  exact ⟨rfl, rfl, by decide⟩

/-- Claim C4 amended: the spill path INCRs `redirect:domain:counter` and
indexes the registry at `(counter - 1) mod len(registry)`, but never
resets that counter; the reset-to-1-above-1,000,000 logic belongs to the
older revision's `getAndIncrementCounter` on `redirect:traffic:counter`.
A spill counter reaching 1,000,001 still selects `registry[0]` because
1,000,000 mod 4 = 0. -/
theorem claim_C4 (rs : RedisState) (idx : Nat) :
    ((getNextRandomDomain false idx rs).1
        = domains.getD
            (((alistLookup rs.counters DOMAIN_COUNTER_KEY).getD 0 + 1 - 1)
              % domains.length) ""
      ∧ alistLookup (getNextRandomDomain false idx rs).2.counters DOMAIN_COUNTER_KEY
          = some ((alistLookup rs.counters DOMAIN_COUNTER_KEY).getD 0 + 1))
    ∧ ((alistLookup rs.counters DOMAIN_COUNTER_KEY).getD 0 = 1000000 →
        (getNextRandomDomain false idx rs).1 = "useuapp.com")
    ∧ (getAndIncrementCounter rs).1
        = (if 1000000 < (alistLookup rs.counters TRAFFIC_COUNTER_KEY).getD 0 + 1 then 1
           else (alistLookup rs.counters TRAFFIC_COUNTER_KEY).getD 0 + 1)
    ∧ alistLookup (getAndIncrementCounter rs).2.counters TRAFFIC_COUNTER_KEY
        = some (if 1000000 < (alistLookup rs.counters TRAFFIC_COUNTER_KEY).getD 0 + 1
                then 1
                else (alistLookup rs.counters TRAFFIC_COUNTER_KEY).getD 0 + 1) := by
  refine ⟨⟨?_, ?_⟩, ?_, ?_, ?_⟩
  · simp [getNextRandomDomain, redisIncr]
  · simp [getNextRandomDomain, redisIncr, alistLookup_alistSet]
  · intro h
    simp [getNextRandomDomain, redisIncr, h]
    decide
  · by_cases h : 1000000 < (alistLookup rs.counters TRAFFIC_COUNTER_KEY).getD 0 + 1
    · simp [getAndIncrementCounter, redisIncr, h]
    · simp [getAndIncrementCounter, redisIncr, h]
  · by_cases h : 1000000 < (alistLookup rs.counters TRAFFIC_COUNTER_KEY).getD 0 + 1
    · simp [getAndIncrementCounter, redisIncr, h, alistLookup_alistSet]
    · simp [getAndIncrementCounter, redisIncr, h, alistLookup_alistSet]

/-- Witness for the amended claim C4 at the 1,000,000 boundary. -/
theorem claim_C4_witness :
    (getNextRandomDomain false 0
        (RedisState.mk [(DOMAIN_COUNTER_KEY, 1000000)] [] none none none none)).1
      = "useuapp.com"
    ∧ (getAndIncrementCounter
        (RedisState.mk [(TRAFFIC_COUNTER_KEY, 1000000)] [] none none none none)).1 = 1 := by
  constructor
  · exact (claim_C4
      (RedisState.mk [(DOMAIN_COUNTER_KEY, 1000000)] [] none none none none) 0).2.1 rfl
  · exact ((claim_C4
      (RedisState.mk [(TRAFFIC_COUNTER_KEY, 1000000)] [] none none none none) 0).2.2.1).trans
      (by decide)

/-! ## Claim C6 -/

/-- Counterexample to claim C6 as stated: the empty string is a query
value for `language` (e.g. a request with `?language=`), the claim's
"any value prepends `/<language>`" clause then demands the pathname
`"/" ++ "" ++ pathname`, but on a non-inverted hostname the code treats
the empty value as falsy and leaves the URL unchanged. -/
theorem claim_C6_counterexample :
    applyLanguage (some "") (Url.mk "useuapp.com" "/random" "")
        = Url.mk "useuapp.com" "/random" ""
    ∧ ¬ ("/" ++ "" ++ "/random" = "/random") := by
  constructor
  · rfl
  · decide

/-- Claim C6 amended: an empty-string `language` value is treated like a
missing one (JS falsiness).  For an inverted hostname: missing, empty or
`"en"` prepends `/en`; `"pt"` leaves the URL unchanged; any other
non-empty value prepends `/<language>`.  For other hostnames: missing or
empty leaves the URL unchanged; any non-empty value prepends
`/<language>`.  Prefixing touches only the pathname component. -/
theorem claim_C6 (u : Url) (language : Option String) :
    (isInvertedHost u.host = true →
        ((language = none ∨ language = some "" ∨ language = some "en") →
          applyLanguage language u = { u with pathname := "/en" ++ u.pathname })
        ∧ (language = some "pt" → applyLanguage language u = u)
        ∧ (∀ l, language = some l → ¬ l = "" → ¬ l = "en" → ¬ l = "pt" →
            applyLanguage language u = { u with pathname := "/" ++ l ++ u.pathname }))
    ∧ (isInvertedHost u.host = false →
        ((language = none ∨ language = some "") → applyLanguage language u = u)
        ∧ (∀ l, language = some l → ¬ l = "" →
            applyLanguage language u = { u with pathname := "/" ++ l ++ u.pathname }))
    ∧ (applyLanguage language u).host = u.host
    ∧ (applyLanguage language u).search = u.search := by
  refine ⟨?_, ?_, ?_, ?_⟩
  · intro hinv
    refine ⟨?_, ?_, ?_⟩
    · rintro (rfl | rfl | rfl) <;> simp [applyLanguage, jsTruthy, hinv]
    · rintro rfl
      simp [applyLanguage, jsTruthy, hinv]
    · rintro l rfl h1 h2 h3
      simp [applyLanguage, jsTruthy, hinv, h1, h2, h3]
  · intro hinv
    refine ⟨?_, ?_⟩
    · rintro (rfl | rfl) <;> simp [applyLanguage, jsTruthy, hinv]
    · rintro l rfl h1
      simp [applyLanguage, jsTruthy, hinv, h1]
  · unfold applyLanguage
    split
    · split
      · simp
      · split <;> simp
    · split <;> simp
  · unfold applyLanguage
    split
    · split
      · simp
      · split <;> simp
    · split <;> simp

/-! ## Claim C1 -/

/-- Claim C1: with `visit` the post-increment visitor-cursor value and
`N` the length of the cached sorted list — if `N > 0` and `visit ≤ N`
the engine selects `sortedDomains[visit-1]` (url, domain and linkId
`best_<domain>_<postId>`); if `N = 0` and `visit ≤ len(registry)` it
selects `registry[visit-1]`, using that domain's `BestLinkMap` entry
when present and `https://<domain>/random` with linkId
`fallback_<domain>` otherwise; `visit = N` selects the last ranked
element and `visit = N + 1` takes the spill path. -/
theorem claim_C1 (sorted : List SortedDomain) (visit now : Nat) (bmF spF : Bool)
    (idx : Nat) (lc : LocalCache) (rs : RedisState) (hv : 1 ≤ visit) :
    (0 < sorted.length → visit ≤ sorted.length →
      selectTarget visit sorted now bmF spF idx lc rs
        = (Selection.mk (sorted.getD (visit - 1) default).domain
            (sorted.getD (visit - 1) default).url
            ("best_" ++ (sorted.getD (visit - 1) default).domain ++ "_"
              ++ (sorted.getD (visit - 1) default).postId) "BEST LINK", lc, rs))
    ∧ (sorted.length = 0 → visit ≤ domains.length →
        (∀ info, alistLookup ((getBestLinksMap now bmF lc rs).1.getD [])
              (domains.getD (visit - 1) "") = some info →
          selectTarget visit sorted now bmF spF idx lc rs
            = (Selection.mk (domains.getD (visit - 1) "") info.url
                ("best_" ++ domains.getD (visit - 1) "" ++ "_" ++ info.postId)
                "BEST LINK", (getBestLinksMap now bmF lc rs).2, rs))
        ∧ (alistLookup ((getBestLinksMap now bmF lc rs).1.getD [])
              (domains.getD (visit - 1) "") = none →
          selectTarget visit sorted now bmF spF idx lc rs
            = (Selection.mk (domains.getD (visit - 1) "")
                ("https://" ++ domains.getD (visit - 1) "" ++ "/random")
                ("fallback_" ++ domains.getD (visit - 1) "") "RANDOM LINK",
               (getBestLinksMap now bmF lc rs).2, rs)))
    ∧ (0 < sorted.length → visit = sorted.length →
        (selectTarget visit sorted now bmF spF idx lc rs).1
          = Selection.mk ((sorted.getLast?).getD default).domain
              ((sorted.getLast?).getD default).url
              ("best_" ++ ((sorted.getLast?).getD default).domain ++ "_"
                ++ ((sorted.getLast?).getD default).postId) "BEST LINK")
    ∧ (0 < sorted.length → visit = sorted.length + 1 →
        selectTarget visit sorted now bmF spF idx lc rs
          = (Selection.mk (getNextRandomDomain spF idx rs).1
              ("https://" ++ (getNextRandomDomain spF idx rs).1 ++ "/random")
              ("random_" ++ (getNextRandomDomain spF idx rs).1) "RANDOM LINK",
             lc, (getNextRandomDomain spF idx rs).2)) := by
  have hlast : 0 < sorted.length →
      sorted.getD (sorted.length - 1) default = (sorted.getLast?).getD default := by
    intro h1
    rw [List.getD_eq_getElem?_getD, List.getLast?_eq_getElem?]
  refine ⟨?_, ?_, ?_, ?_⟩
  · intro h1 h2
    unfold selectTarget
    rw [if_pos ⟨h1, h2⟩]
  · intro h0 h2
    obtain rfl : sorted = [] := List.length_eq_zero.mp h0
    constructor
    · intro info hinfo
      unfold selectTarget
      rw [if_neg (by simp), if_pos ⟨rfl, h2⟩]
      simp only []
      rw [hinfo]
    · intro hnone
      unfold selectTarget
      rw [if_neg (by simp), if_pos ⟨rfl, h2⟩]
      simp only []
      rw [hnone]
      rfl
  · intro h1 h2
    unfold selectTarget
    rw [if_pos ⟨h1, le_of_eq h2⟩]
    simp only [h2, hlast h1]
  · intro h1 h2
    unfold selectTarget
    rw [if_neg (by omega), if_neg (by omega)]
    rfl

/-- Witness for claim C1: with two ranked domains, visit 2 selects the
second (and last) one, and visit 3 spills to the global rotation. -/
theorem claim_C1_witness :
    (selectTarget 2
        [SortedDomain.mk "B" "https://B/?p=2" "2" 10,
         SortedDomain.mk "A" "https://A/?p=1" "1" 5]
        0 false false 0 (LocalCache.mk none 0 none 0)
        (RedisState.mk [] [] none none none none)).1
      = Selection.mk "A" "https://A/?p=1" "best_A_1" "BEST LINK"
    ∧ (selectTarget 3
        [SortedDomain.mk "B" "https://B/?p=2" "2" 10,
         SortedDomain.mk "A" "https://A/?p=1" "1" 5]
        0 false false 0 (LocalCache.mk none 0 none 0)
        (RedisState.mk [] [] none none none none)).1
      = Selection.mk "useuapp.com" "https://useuapp.com/random"
          "random_useuapp.com" "RANDOM LINK" := by
  constructor
  · have h := (claim_C1
      [SortedDomain.mk "B" "https://B/?p=2" "2" 10,
       SortedDomain.mk "A" "https://A/?p=1" "1" 5]
      2 0 false false 0 (LocalCache.mk none 0 none 0)
      (RedisState.mk [] [] none none none none) (by decide)).1
      (by decide) (by decide)
    rw [h]
    rfl
  · have h := (claim_C1
      [SortedDomain.mk "B" "https://B/?p=2" "2" 10,
       SortedDomain.mk "A" "https://A/?p=1" "1" 5]
      3 0 false false 0 (LocalCache.mk none 0 none 0)
      (RedisState.mk [] [] none none none none) (by decide)).2.2.2
      (by decide) (by decide)
    rw [h]
    rfl

/-- Witness for the amended claim C6: `?language=es` on the inverted
host `appmobile4u.com` prepends `/es`, and `?language=pt` there leaves
the URL unchanged. -/
theorem claim_C6_witness :
    applyLanguage (some "es") (Url.mk "appmobile4u.com" "/?p=7" "")
        = Url.mk "appmobile4u.com" "/es/?p=7" ""
    ∧ applyLanguage (some "pt") (Url.mk "appmobile4u.com" "/?p=7" "")
        = Url.mk "appmobile4u.com" "/?p=7" "" := by
  constructor
  · exact (((claim_C6 (Url.mk "appmobile4u.com" "/?p=7" "") (some "es")).1
      (by decide)).2.2 "es" rfl (by decide) (by decide) (by decide)).trans (by decide)
  · exact ((claim_C6 (Url.mk "appmobile4u.com" "/?p=7" "") (some "pt")).1
      (by decide)).2.1 rfl

/-! ## Handler-path helper lemmas (shared by C7 and C9) -/

theorem serializeParams_three_le (v1 v2 v3 : String) (tail : List (String × String)) :
    37 ≤ (serializeParams (("utm_source", v1) :: ("utm_medium", v2)
        :: ("utm_campaign", v3) :: tail)).length := by
  have l1 : ("utm_source" : String).length = 10 := rfl
  have l2 : ("utm_medium" : String).length = 10 := rfl
  have l3 : ("utm_campaign" : String).length = 12 := rfl
  have leq : ("=" : String).length = 1 := rfl
  have lamp : ("&" : String).length = 1 := rfl
  cases tail with
  | nil =>
    simp only [serializeParams, String.length_append, l1, l2, l3, leq, lamp]
    omega
  | cons p rest =>
    simp only [serializeParams, String.length_append, l1, l2, l3, leq, lamp]
    omega

theorem serializeParams_utm_le (req : Req) (linkId : String) :
    37 ≤ (serializeParams (buildUtmParams req linkId)).length := by
  exact serializeParams_three_le (jsOr req.utm_source "redron")
    (jsOr req.utm_medium "broadcast")
    (jsOr req.utm_campaign (if linkId = "" then "direct" else linkId))
    ((if jsTruthy req.utm_term then [("utm_term", req.utm_term.getD "")] else [])
      ++ (if jsTruthy req.utm_content then [("utm_content", req.utm_content.getD "")] else [])
      ++ (if jsTruthy req.fbclid then [("fbclid", req.fbclid.getD "")] else [])
      ++ (if jsTruthy req.gclid then [("gclid", req.gclid.getD "")] else []))

theorem redirectHandler_normal (req : Req) (env : Env) (lc : LocalCache)
    (rs : RedisState) (hf : isFaviconReq req = false)
    (ht : env.unexpectedThrow = false) (url : Url)
    (hp : parseUrl (dispatchSelection req env lc rs).1.redirectUrl = some url) :
    (redirectHandler req env lc rs).1
      = Response.redirect
          (langAssign req.language url (dispatchSelection req env lc rs).1.redirectUrl
            ++ (if strContains (langAssign req.language url
                  (dispatchSelection req env lc rs).1.redirectUrl) "?"
                then "&" else "?")
            ++ serializeParams (buildUtmParams req
                  (dispatchSelection req env lc rs).1.linkId)) := by
  simp only [redirectHandler, hf, ht, Bool.false_eq_true, if_false, hp]

theorem redirectHandler_no_emergency (req : Req) (env : Env) (lc : LocalCache)
    (rs : RedisState) (hf : isFaviconReq req = false)
    (ht : env.unexpectedThrow = false)
    (hp : ¬ parseUrl (dispatchSelection req env lc rs).1.redirectUrl = none) :
    ∃ u, (redirectHandler req env lc rs).1 = Response.redirect u
      ∧ ¬ u = EMERGENCY_FALLBACK_URL := by
  obtain ⟨url, hurl⟩ : ∃ u, parseUrl (dispatchSelection req env lc rs).1.redirectUrl
      = some u := by
    cases h : parseUrl (dispatchSelection req env lc rs).1.redirectUrl with
    | none => exact absurd h hp
    | some u => exact ⟨u, rfl⟩
  refine ⟨_, redirectHandler_normal req env lc rs hf ht url hurl, fun hc => ?_⟩
  have hlen := congrArg String.length hc
  rw [String.length_append, String.length_append] at hlen
  have hsep : (if strContains (langAssign req.language url
        (dispatchSelection req env lc rs).1.redirectUrl) "?"
      then ("&" : String) else "?").length = 1 := by
    split <;> rfl
  have hutm := serializeParams_utm_le req (dispatchSelection req env lc rs).1.linkId
  have hem : (EMERGENCY_FALLBACK_URL).length = 26 := rfl
  omega

/-! ## Claim C7 -/

/-- Claim C7: every dispatch request is answered with a 204 (exactly
when the path or raw URL contains `favicon`) or a 302; an exception
during Steps 2 to 9 is caught and answered with a 302 to
`https://useuapp.com/random`; and that fallback URL is never produced by
the normal (exception-free) path, so dispatch never returns a 5xx. -/
theorem claim_C7 (req : Req) (env : Env) (lc : LocalCache) (rs : RedisState) :
    ((redirectHandler req env lc rs).1 = Response.noContent
      ∨ ∃ u, (redirectHandler req env lc rs).1 = Response.redirect u)
    ∧ (isFaviconReq req = true → (redirectHandler req env lc rs).1 = Response.noContent)
    ∧ ((redirectHandler req env lc rs).1 = Response.noContent → isFaviconReq req = true)
    ∧ (isFaviconReq req = false → env.unexpectedThrow = true →
        (redirectHandler req env lc rs).1 = Response.redirect EMERGENCY_FALLBACK_URL)
    ∧ (isFaviconReq req = false → env.unexpectedThrow = false →
        ¬ parseUrl (dispatchSelection req env lc rs).1.redirectUrl = none →
        ¬ (redirectHandler req env lc rs).1
            = Response.redirect EMERGENCY_FALLBACK_URL) := by
  cases hf : isFaviconReq req with
  | true =>
    have hh : (redirectHandler req env lc rs).1 = Response.noContent := by
      simp [redirectHandler, hf]
    exact ⟨Or.inl hh, fun _ => hh, fun _ => rfl, by simp [hf], by simp [hf]⟩
  | false =>
    cases ht : env.unexpectedThrow with
    | true =>
      have hh : (redirectHandler req env lc rs).1
          = Response.redirect EMERGENCY_FALLBACK_URL := by
        simp [redirectHandler, hf, ht]
      refine ⟨Or.inr ⟨_, hh⟩, by simp [hf], ?_, fun _ _ => hh, by simp [ht]⟩
      intro h1
      rw [hh] at h1
      cases h1
    | false =>
      cases hp : parseUrl (dispatchSelection req env lc rs).1.redirectUrl with
      | none =>
        have hh : (redirectHandler req env lc rs).1
            = Response.redirect EMERGENCY_FALLBACK_URL := by
          simp [redirectHandler, hf, ht, hp]
        refine ⟨Or.inr ⟨_, hh⟩, by simp [hf], ?_, by simp [ht], ?_⟩
        · intro h1
          rw [hh] at h1
          cases h1
        · intro _ _ hnp
          exact absurd rfl hnp
      | some url =>
        obtain ⟨u, hu, hne⟩ := redirectHandler_no_emergency req env lc rs hf ht
          (by rw [hp]; exact fun hc => Option.noConfusion hc)
        refine ⟨Or.inr ⟨_, hu⟩, by simp [hf], ?_, by simp [ht], ?_⟩
        · intro h1
          rw [hu] at h1
          cases h1
        · intro _ _ _ hc
          rw [hu] at hc
          exact hne (by injection hc)

/-- Witness for claim C7: a favicon request answers 204, and a plain
request on an empty state answers a 302 that is not the emergency
fallback. -/
theorem claim_C7_witness :
    (redirectHandler
        (Req.mk "/favicon.ico" "/favicon.ico" none none none none none none none
          none none none)
        (Env.mk 0 0 false false false false 0 false)
        (LocalCache.mk none 0 none 0) (RedisState.mk [] [] none none none none)).1
      = Response.noContent
    ∧ ¬ (redirectHandler
        (Req.mk "/" "/" none none none none none none none none none none)
        (Env.mk 0 0 false false false false 0 false)
        (LocalCache.mk none 0 none 0) (RedisState.mk [] [] none none none none)).1
      = Response.redirect EMERGENCY_FALLBACK_URL := by
  constructor
  · exact (claim_C7
      (Req.mk "/favicon.ico" "/favicon.ico" none none none none none none none
        none none none)
      (Env.mk 0 0 false false false false 0 false)
      (LocalCache.mk none 0 none 0) (RedisState.mk [] [] none none none none)).2.1
      (by decide)
  · exact (claim_C7
      (Req.mk "/" "/" none none none none none none none none none none)
      (Env.mk 0 0 false false false false 0 false)
      (LocalCache.mk none 0 none 0) (RedisState.mk [] [] none none none none)).2.2.2.2
      (by decide) rfl (by decide)

/-! ## Claim C9 -/

theorem getSortedDomains_fails_eq (now : Nat) (lc : LocalCache) (rs : RedisState) :
    getSortedDomains now true lc rs = (lc.sortedDomainsCache.getD [], lc) := by
  unfold getSortedDomains getSortedDomainsShared
  cases h : lc.sortedDomainsCache with
  | none => simp [h]
  | some c =>
    simp only [h, Option.getD_some]
    split <;> simp [h]

/-- Claim C9: when a shared-cache operation fails during a dispatch —
the visitor-cursor increment, the sorted-domains read, or the
spill-counter increment — the error is swallowed by the corresponding
`catch` branch, the request still completes with a redirect that is not
the emergency fallback, and the hot path falls back first to the
in-memory copy of the rankings and then to the `/random` spill. -/
theorem claim_C9 (req : Req) (env : Env) (lc : LocalCache) (rs : RedisState)
    (hf : isFaviconReq req = false) (ht : env.unexpectedThrow = false) :
    (∀ ip hour rs2, getAndIncrementVisitorDomainCount true ip hour rs2 = (1, rs2))
    ∧ (∀ now lc2 rs2, getSortedDomains now true lc2 rs2
        = (lc2.sortedDomainsCache.getD [], lc2))
    ∧ (∀ idx rs2, getNextRandomDomain true idx rs2 = (domains.getD idx "", rs2))
    ∧ (¬ parseUrl (dispatchSelection req env lc rs).1.redirectUrl = none →
        ∃ u, (redirectHandler req env lc rs).1 = Response.redirect u
          ∧ ¬ u = EMERGENCY_FALLBACK_URL)
    ∧ (env.sortedGetFails = true → lc.sortedDomainsCache.getD [] = [] →
        domains.length < (getAndIncrementVisitorDomainCount env.visitorIncrFails
            (getClientIp req) env.hour rs).1 →
        (dispatchSelection req env lc rs).1.linkId
            = "random_" ++ (dispatchSelection req env lc rs).1.domain
        ∧ (dispatchSelection req env lc rs).1.redirectUrl
            = "https://" ++ (dispatchSelection req env lc rs).1.domain ++ "/random") := by
  refine ⟨fun ip hour rs2 => rfl, fun now lc2 rs2 => getSortedDomains_fails_eq now lc2 rs2,
    fun idx rs2 => rfl, redirectHandler_no_emergency req env lc rs hf ht, ?_⟩
  intro hsf hempty hvisit
  have hsel : dispatchSelection req env lc rs
      = selectTarget (getAndIncrementVisitorDomainCount env.visitorIncrFails
            (getClientIp req) env.hour rs).1 [] env.now env.bestMapGetFails
          env.spillIncrFails env.randIdx lc
          (getAndIncrementVisitorDomainCount env.visitorIncrFails
            (getClientIp req) env.hour rs).2 := by
    simp only [dispatchSelection, hsf, getSortedDomains_fails_eq, hempty]
  rw [hsel]
  unfold selectTarget
  rw [if_neg (by simp), if_neg (by omega)]
  exact ⟨rfl, rfl⟩

/-- Witness for claim C9: concrete failing calls return the documented
fallbacks, and a dispatch in which every cache call fails still answers
a plain redirect. -/
theorem claim_C9_witness :
    getAndIncrementVisitorDomainCount true "1.2.3.4" 7
        (RedisState.mk [] [] none none none none)
      = (1, RedisState.mk [] [] none none none none)
    ∧ getSortedDomains 5 true (LocalCache.mk none 0 none 0)
        (RedisState.mk [] [] none none none none)
      = ([], LocalCache.mk none 0 none 0)
    ∧ getNextRandomDomain true 2 (RedisState.mk [] [] none none none none)
      = ("odiahoje.com", RedisState.mk [] [] none none none none)
    ∧ (redirectHandler
        (Req.mk "/" "/" none none none none none none none none none none)
        (Env.mk 0 0 true true true true 0 false)
        (LocalCache.mk none 0 none 0) (RedisState.mk [] [] none none none none)).1
      = Response.redirect
          ("https://useuapp.com/random?utm_source=redron&utm_medium=broadcast"
            ++ "&utm_campaign=fallback_useuapp.com") := by
  have h := claim_C9
    (Req.mk "/" "/" none none none none none none none none none none)
    (Env.mk 0 0 true true true true 0 false)
    (LocalCache.mk none 0 none 0) (RedisState.mk [] [] none none none none)
    (by decide) rfl
  refine ⟨?_, ?_, ?_, ?_⟩
  · exact h.1 "1.2.3.4" 7 (RedisState.mk [] [] none none none none)
  · exact (h.2.1 5 (LocalCache.mk none 0 none 0)
      (RedisState.mk [] [] none none none none)).trans (by decide)
  · exact (h.2.2.1 2 (RedisState.mk [] [] none none none none)).trans (by decide)
  · decide

/-! ## Claim C2 helper lemmas -/

theorem mkBestLinkEntry_postId (d p : String) (e : ℚ) :
    (mkBestLinkEntry d p e).postId = p := rfl

theorem mkBestLinkEntry_ecpm (d p : String) (e : ℚ) :
    (mkBestLinkEntry d p e).ecpm = e := rfl

theorem mkBestLinkEntry_url (d p : String) (e : ℚ) :
    (mkBestLinkEntry d p e).url
      = "https://" ++ d ++ "/?p=" ++ encodeURIComponent p := rfl

theorem contribPairs_cons_skip (d : String) (r : AnalyticsRow)
    (rest : List AnalyticsRow)
    (h : ¬ (r.domain = d ∧ ¬ r.domain = "" ∧ ¬ r.custom_value = "")) :
    contribPairs d (r :: rest) = contribPairs d rest := by
  simp only [contribPairs, List.filterMap_cons, if_neg h]

theorem contribPairs_cons_keep (d : String) (r : AnalyticsRow)
    (rest : List AnalyticsRow)
    (h : r.domain = d ∧ ¬ r.domain = "" ∧ ¬ r.custom_value = "") :
    contribPairs d (r :: rest)
      = (r.custom_value, r.ecpm.getD 0) :: contribPairs d rest := by
  simp only [contribPairs, List.filterMap_cons, if_pos h]

theorem pickBestFrom_nil (acc : Option (String × ℚ)) : pickBestFrom acc [] = acc := rfl

theorem pickBestFrom_none_cons (p : String × ℚ) (rest : List (String × ℚ)) :
    pickBestFrom none (p :: rest) = pickBestFrom (some p) rest := rfl

theorem pickBestFrom_some_cons (q p : String × ℚ) (rest : List (String × ℚ)) :
    pickBestFrom (some q) (p :: rest)
      = pickBestFrom (if q.2 < p.2 then some p else some q) rest := rfl

theorem pickBestFrom_isSome (l : List (String × ℚ)) (q : String × ℚ) :
    (pickBestFrom (some q) l).isSome := by
  induction l generalizing q with
  | nil => rfl
  | cons p rest ih =>
    rw [pickBestFrom_some_cons]
    by_cases h : q.2 < p.2
    · rw [if_pos h]; exact ih p
    · rw [if_neg h]; exact ih q

theorem pickBestFrom_mem (l : List (String × ℚ)) (acc : Option (String × ℚ))
    (m : String × ℚ) (h : pickBestFrom acc l = some m) : m ∈ l ∨ acc = some m := by
  induction l generalizing acc with
  | nil => exact Or.inr h
  | cons p rest ih =>
    cases acc with
    | none =>
      rw [pickBestFrom_none_cons] at h
      rcases ih (some p) h with h2 | h2
      · exact Or.inl (List.mem_cons_of_mem _ h2)
      · exact Or.inl (by simp [Option.some_inj.mp h2])
    | some q =>
      rw [pickBestFrom_some_cons] at h
      by_cases hlt : q.2 < p.2
      · rw [if_pos hlt] at h
        rcases ih (some p) h with h2 | h2
        · exact Or.inl (List.mem_cons_of_mem _ h2)
        · exact Or.inl (by simp [Option.some_inj.mp h2])
      · rw [if_neg hlt] at h
        rcases ih (some q) h with h2 | h2
        · exact Or.inl (List.mem_cons_of_mem _ h2)
        · exact Or.inr h2

theorem pickBestFrom_max (l : List (String × ℚ)) (acc : Option (String × ℚ))
    (m : String × ℚ) (h : pickBestFrom acc l = some m) :
    (∀ q ∈ l, q.2 ≤ m.2) ∧ (∀ a, acc = some a → a.2 ≤ m.2) := by
  induction l generalizing acc with
  | nil =>
    refine ⟨by simp, fun a ha => ?_⟩
    rw [pickBestFrom_nil] at h
    rw [ha] at h
    rw [Option.some_inj.mp h]
  | cons p rest ih =>
    cases acc with
    | none =>
      rw [pickBestFrom_none_cons] at h
      obtain ⟨h1, h2⟩ := ih (some p) h
      have hp : p.2 ≤ m.2 := h2 p rfl
      refine ⟨fun q hq => ?_, fun a ha => Option.noConfusion ha⟩
      rcases List.mem_cons.mp hq with rfl | hq
      · exact hp
      · exact h1 q hq
    | some q0 =>
      rw [pickBestFrom_some_cons] at h
      by_cases hlt : q0.2 < p.2
      · rw [if_pos hlt] at h
        obtain ⟨h1, h2⟩ := ih (some p) h
        have hp : p.2 ≤ m.2 := h2 p rfl
        refine ⟨fun q hq => ?_, fun a ha => ?_⟩
        · rcases List.mem_cons.mp hq with rfl | hq
          · exact hp
          · exact h1 q hq
        · rw [Option.some_inj.mp ha.symm]
          exact le_trans (le_of_lt hlt) hp
      · rw [if_neg hlt] at h
        obtain ⟨h1, h2⟩ := ih (some q0) h
        have hq0 : q0.2 ≤ m.2 := h2 q0 rfl
        refine ⟨fun q hq => ?_, fun a ha => ?_⟩
        · rcases List.mem_cons.mp hq with rfl | hq
          · exact le_trans (le_of_not_lt hlt) hq0
          · exact h1 q hq
        · rw [Option.some_inj.mp ha.symm]
          exact hq0

theorem bestByDomainStep_lookup_other (acc : BestLinkMap) (r : AnalyticsRow)
    (d : String) (hdom : ¬ r.domain = d) :
    alistLookup (bestByDomainStep acc r) d = alistLookup acc d := by
  by_cases hskip : r.domain = "" ∨ r.custom_value = ""
  · simp only [bestByDomainStep, if_pos hskip]
  · cases h0 : alistLookup acc r.domain with
    | none =>
      simp only [bestByDomainStep, if_neg hskip, h0]
      rw [alistLookup_alistSet, if_neg hdom]
    | some e0 =>
      simp only [bestByDomainStep, if_neg hskip, h0]
      split
      · rw [alistLookup_alistSet, if_neg hdom]
      · rfl

theorem buildBestByDomain_loop (d : String) (data : List AnalyticsRow) :
    ∀ (acc : BestLinkMap),
    (∀ e, alistLookup acc d = some e → e = mkBestLinkEntry d e.postId e.ecpm) →
    alistLookup (data.foldl bestByDomainStep acc) d
      = (pickBestFrom ((alistLookup acc d).map fun e => (e.postId, e.ecpm))
          (contribPairs d data)).map fun p => mkBestLinkEntry d p.1 p.2 := by
  induction data with
  | nil =>
    intro acc hco
    cases h : alistLookup acc d with
    | none => simp [contribPairs, pickBestFrom_nil, h]
    | some e =>
      simp only [List.foldl_nil, h, Option.map_some, contribPairs,
        List.filterMap_nil, pickBestFrom_nil]
      exact congrArg some (hco e h)
  | cons r rest ih =>
    intro acc hco
    rw [List.foldl_cons]
    by_cases hskip : r.domain = "" ∨ r.custom_value = ""
    · have hstep : bestByDomainStep acc r = acc := by
        unfold bestByDomainStep
        rw [if_pos hskip]
      have hcp : contribPairs d (r :: rest) = contribPairs d rest := by
        refine contribPairs_cons_skip d r rest ?_
        rintro ⟨h1, h2, h3⟩
        rcases hskip with h | h
        · exact h2 h
        · exact h3 h
      rw [hstep, hcp]
      exact ih acc hco
    · have hd2 : ¬ r.domain = "" := fun hc => hskip (Or.inl hc)
      have hcv : ¬ r.custom_value = "" := fun hc => hskip (Or.inr hc)
      by_cases hdom : r.domain = d
      · subst hdom
        have hcp := contribPairs_cons_keep r.domain r rest ⟨rfl, hd2, hcv⟩
        cases hacc : alistLookup acc r.domain with
        | none =>
          have hstep : bestByDomainStep acc r
              = alistSet acc r.domain
                  (mkBestLinkEntry r.domain r.custom_value (r.ecpm.getD 0)) := by
            simp only [bestByDomainStep, if_neg hskip, hacc]
          have hl : alistLookup (alistSet acc r.domain
                (mkBestLinkEntry r.domain r.custom_value (r.ecpm.getD 0))) r.domain
              = some (mkBestLinkEntry r.domain r.custom_value (r.ecpm.getD 0)) := by
            rw [alistLookup_alistSet, if_pos rfl]
          have hco2 : ∀ e, alistLookup (alistSet acc r.domain
                (mkBestLinkEntry r.domain r.custom_value (r.ecpm.getD 0))) r.domain
                = some e → e = mkBestLinkEntry r.domain e.postId e.ecpm := by
            intro e he
            rw [hl] at he
            rw [← Option.some_inj.mp he]
            rfl
          rw [hstep, ih _ hco2, hl, hcp]
          rfl
        | some e0 =>
          by_cases hgt : e0.ecpm < r.ecpm.getD 0
          · have hstep : bestByDomainStep acc r
                = alistSet acc r.domain
                    (mkBestLinkEntry r.domain r.custom_value (r.ecpm.getD 0)) := by
              simp only [bestByDomainStep, if_neg hskip, hacc, if_pos hgt]
            have hl : alistLookup (alistSet acc r.domain
                  (mkBestLinkEntry r.domain r.custom_value (r.ecpm.getD 0))) r.domain
                = some (mkBestLinkEntry r.domain r.custom_value (r.ecpm.getD 0)) := by
              rw [alistLookup_alistSet, if_pos rfl]
            have hco2 : ∀ e, alistLookup (alistSet acc r.domain
                  (mkBestLinkEntry r.domain r.custom_value (r.ecpm.getD 0))) r.domain
                  = some e → e = mkBestLinkEntry r.domain e.postId e.ecpm := by
              intro e he
              rw [hl] at he
              rw [← Option.some_inj.mp he]
              rfl
            rw [hstep, ih _ hco2, hl, hcp]
            simp [pickBestFrom_some_cons, hgt, mkBestLinkEntry_postId,
              mkBestLinkEntry_ecpm]
          · have hstep : bestByDomainStep acc r = acc := by
              simp only [bestByDomainStep, if_neg hskip, hacc, if_neg hgt]
            rw [hstep, ih acc hco, hcp, hacc]
            simp [pickBestFrom_some_cons, hgt]
      · have hl := bestByDomainStep_lookup_other acc r d hdom
        have hcp : contribPairs d (r :: rest) = contribPairs d rest := by
          refine contribPairs_cons_skip d r rest ?_
          rintro ⟨h1, _, _⟩
          exact hdom h1
        have hco2 : ∀ e, alistLookup (bestByDomainStep acc r) d = some e →
            e = mkBestLinkEntry d e.postId e.ecpm := by
          rw [hl]
          exact hco
        rw [ih _ hco2, hl, hcp]

theorem nodup_keys_bestByDomainStep (acc : BestLinkMap) (r : AnalyticsRow)
    (h : (acc.map Prod.fst).Nodup) :
    ((bestByDomainStep acc r).map Prod.fst).Nodup := by
  by_cases hskip : r.domain = "" ∨ r.custom_value = ""
  · simpa only [bestByDomainStep, if_pos hskip] using h
  · cases h0 : alistLookup acc r.domain with
    | none =>
      simp only [bestByDomainStep, if_neg hskip, h0]
      exact nodup_keys_alistSet acc r.domain _ h
    | some e0 =>
      simp only [bestByDomainStep, if_neg hskip, h0]
      split
      · exact nodup_keys_alistSet acc r.domain _ h
      · exact h

theorem nodup_keys_buildBestByDomain (data : List AnalyticsRow) :
    ((buildBestByDomain data).map Prod.fst).Nodup := by
  have hgen : ∀ (acc : BestLinkMap), (acc.map Prod.fst).Nodup →
      ((data.foldl bestByDomainStep acc).map Prod.fst).Nodup := by
    induction data with
    | nil => intro acc h; exact h
    | cons r rest ih =>
      intro acc h
      rw [List.foldl_cons]
      exact ih _ (nodup_keys_bestByDomainStep acc r h)
  exact hgen [] (by simp)

/-! ## Claim C2 -/

/-- Claim C2: the refresher builds `bestByDomain` by folding over the
rows, skipping rows with an empty domain or `custom_value`, treating a
missing eCPM as 0, and replacing an entry only on a strictly greater
eCPM (ties keep the first-seen row); every entry's url is
`https://<domain>/?p=<urlencode(postId)>`; hence every domain with a
contributing row has exactly one entry, and its postId attains the
maximal eCPM among that domain's rows. -/
theorem claim_C2 (data : List AnalyticsRow) (d : String) :
    alistLookup (buildBestByDomain data) d
      = (pickBest (contribPairs d data)).map (fun p => mkBestLinkEntry d p.1 p.2)
    ∧ (∀ e, alistLookup (buildBestByDomain data) d = some e →
        e.url = "https://" ++ d ++ "/?p=" ++ encodeURIComponent e.postId
        ∧ (e.postId, e.ecpm) ∈ contribPairs d data
        ∧ ∀ q ∈ contribPairs d data, q.2 ≤ e.ecpm)
    ∧ ((buildBestByDomain data).map Prod.fst).Nodup
    ∧ ((alistLookup (buildBestByDomain data) d).isSome
        ↔ ¬ contribPairs d data = []) := by
  have heq : alistLookup (buildBestByDomain data) d
      = (pickBest (contribPairs d data)).map (fun p => mkBestLinkEntry d p.1 p.2) := by
    have hmain := buildBestByDomain_loop d data [] (fun e he => Option.noConfusion he)
    simpa [buildBestByDomain, pickBest, alistLookup] using hmain
  refine ⟨heq, ?_, nodup_keys_buildBestByDomain data, ?_⟩
  · intro e he
    rw [heq] at he
    cases hpb : pickBest (contribPairs d data) with
    | none =>
      rw [hpb] at he
      cases he
    | some m =>
      rw [hpb] at he
      have hem : e = mkBestLinkEntry d m.1 m.2 := (Option.some_inj.mp he).symm
      rcases pickBestFrom_mem (contribPairs d data) none m hpb with hmem | hmem
      · obtain ⟨hmax, _⟩ := pickBestFrom_max (contribPairs d data) none m hpb
        subst hem
        refine ⟨rfl, ?_, ?_⟩
        · exact hmem
        · intro q hq
          exact hmax q hq
      · exact Option.noConfusion hmem
  · constructor
    · intro hsome hc
      rw [heq, hc] at hsome
      cases hsome
    · intro hne
      rw [heq]
      cases hc : contribPairs d data with
      | nil => exact absurd hc hne
      | cons p rest =>
        have : (pickBestFrom (some p) rest).isSome := pickBestFrom_isSome rest p
        simpa [pickBest, pickBestFrom_none_cons] using this

/-- Witness for claim C2: on a concrete row set with a tie for domain
`B`, the first-seen winning row (post 2, eCPM 10) is cached. -/
theorem claim_C2_witness :
    alistLookup (buildBestByDomain
        [AnalyticsRow.mk "A" "1" (some 5), AnalyticsRow.mk "B" "2" (some 10),
         AnalyticsRow.mk "B" "3" (some 10), AnalyticsRow.mk "" "9" (some 99),
         AnalyticsRow.mk "A" "" (some 99)]) "B"
      = some (mkBestLinkEntry "B" "2" 10)
    ∧ ("2", (10 : ℚ)) ∈ contribPairs "B"
        [AnalyticsRow.mk "A" "1" (some 5), AnalyticsRow.mk "B" "2" (some 10),
         AnalyticsRow.mk "B" "3" (some 10), AnalyticsRow.mk "" "9" (some 99),
         AnalyticsRow.mk "A" "" (some 99)] := by
  have h := claim_C2
    [AnalyticsRow.mk "A" "1" (some 5), AnalyticsRow.mk "B" "2" (some 10),
     AnalyticsRow.mk "B" "3" (some 10), AnalyticsRow.mk "" "9" (some 99),
     AnalyticsRow.mk "A" "" (some 99)] "B"
  have h1 : alistLookup (buildBestByDomain
      [AnalyticsRow.mk "A" "1" (some 5), AnalyticsRow.mk "B" "2" (some 10),
       AnalyticsRow.mk "B" "3" (some 10), AnalyticsRow.mk "" "9" (some 99),
       AnalyticsRow.mk "A" "" (some 99)]) "B"
      = some (mkBestLinkEntry "B" "2" 10) := by
    rw [h.1]
    decide
  exact ⟨h1, (h.2.1 (mkBestLinkEntry "B" "2" 10) h1).2.1⟩

/-! ## Claim C3 helper lemmas -/

theorem insertByEcpmDesc_perm (x : SortedDomain) (l : List SortedDomain) :
    (insertByEcpmDesc x l).Perm (x :: l) := by
  induction l with
  | nil => exact List.Perm.refl _
  | cons y ys ih =>
    unfold insertByEcpmDesc
    split
    · exact List.Perm.refl _
    · exact (ih.cons y).trans (List.Perm.swap x y ys)

theorem sortByEcpmDesc_perm (l : List SortedDomain) : (sortByEcpmDesc l).Perm l := by
  induction l with
  | nil => exact List.Perm.refl _
  | cons x xs ih =>
    exact (insertByEcpmDesc_perm x (sortByEcpmDesc xs)).trans (ih.cons x)

theorem pairwise_insertByEcpmDesc (x : SortedDomain) (l : List SortedDomain)
    (h : l.Pairwise fun a b => b.ecpm ≤ a.ecpm) :
    (insertByEcpmDesc x l).Pairwise fun a b => b.ecpm ≤ a.ecpm := by
  induction l with
  | nil => simp [insertByEcpmDesc]
  | cons y ys ih =>
    rw [List.pairwise_cons] at h
    obtain ⟨hy, hys⟩ := h
    unfold insertByEcpmDesc
    split
    · rename_i hle
      refine List.Pairwise.cons ?_ (List.Pairwise.cons hy hys)
      intro z hz
      rcases List.mem_cons.mp hz with rfl | hz
      · exact hle
      · exact le_trans (hy z hz) hle
    · rename_i hnle
      refine List.Pairwise.cons ?_ (ih hys)
      intro z hz
      have hz2 := (insertByEcpmDesc_perm x ys).mem_iff.mp hz
      rcases List.mem_cons.mp hz2 with rfl | hz2
      · exact le_of_not_le hnle
      · exact hy z hz2

theorem sortByEcpmDesc_pairwise (l : List SortedDomain) :
    (sortByEcpmDesc l).Pairwise fun a b => b.ecpm ≤ a.ecpm := by
  induction l with
  | nil => simp [sortByEcpmDesc]
  | cons x xs ih => exact pairwise_insertByEcpmDesc x _ ih

/-! ## Claim C3 -/

/-- Claim C3: after a successful refresh the published sorted list is
exactly the entries of `bestByDomain` (a permutation carrying domain,
url, postId and ecpm; one element per domain since the map keys are
distinct), sorted by eCPM in descending order. -/
theorem claim_C3 (data : List AnalyticsRow) (now : Nat) (st : RefresherState)
    (h1 : ¬ data = []) (h2 : ¬ buildBestByDomain data = []) :
    (executeProcessInternal data now st).2.rs.sortedDomainsVal
        = some (sortByEcpmDesc ((buildBestByDomain data).map toSortedDomain))
    ∧ (sortByEcpmDesc ((buildBestByDomain data).map toSortedDomain)).Perm
        ((buildBestByDomain data).map toSortedDomain)
    ∧ (sortByEcpmDesc ((buildBestByDomain data).map toSortedDomain)).Pairwise
        (fun a b => b.ecpm ≤ a.ecpm)
    ∧ ((buildBestByDomain data).map Prod.fst).Nodup := by
  have hlen : ¬ data.length = 0 := fun hc => h1 (List.length_eq_zero.mp hc)
  have hbl : 0 < (buildBestByDomain data).length := List.length_pos.mpr h2
  refine ⟨?_, sortByEcpmDesc_perm _, sortByEcpmDesc_pairwise _,
    nodup_keys_buildBestByDomain data⟩
  simp [executeProcessInternal, h1, hlen, hbl]

/-- Witness for claim C3 at a concrete refresh: domains sorted by
descending eCPM, one entry per domain. -/
theorem claim_C3_witness :
    (executeProcessInternal
        [AnalyticsRow.mk "A" "1" (some 5), AnalyticsRow.mk "B" "2" (some 10)] 42
        (RefresherState.mk (RedisState.mk [] [] none none none none)
          (LocalCache.mk none 0 none 0) [] 0)).2.rs.sortedDomainsVal
      = some [SortedDomain.mk "B" "https://B/?p=2" "2" 10,
              SortedDomain.mk "A" "https://A/?p=1" "1" 5] := by
  exact (claim_C3
    [AnalyticsRow.mk "A" "1" (some 5), AnalyticsRow.mk "B" "2" (some 10)] 42
    (RefresherState.mk (RedisState.mk [] [] none none none none)
      (LocalCache.mk none 0 none 0) [] 0)
    (by decide) (by decide)).1.trans (by decide)

/-! ## Claim C8 -/

/-- Counterexample to claim C8 as stated: a run whose rows contribute no
`bestByDomain` entry (here a single row with an empty `custom_value`)
does leave both shared-cache keys and the local copies untouched, but it
does not merely log and return — it still reconciles the link store,
deactivating the active record (which lies inside the
`getAllLinks(1000, 0)` scan window). -/
theorem claim_C8_counterexample :
    ¬ (executeProcessInternal [AnalyticsRow.mk "useuapp.com" "" (some 5)] 0
        (RefresherState.mk (RedisState.mk [] [] none none none none)
          (LocalCache.mk none 0 none 0)
          [LinkRecord.mk 1 "useuapp.com" "https://useuapp.com/?p=1" true 0] 2)).2
      = RefresherState.mk (RedisState.mk [] [] none none none none)
          (LocalCache.mk none 0 none 0)
          [LinkRecord.mk 1 "useuapp.com" "https://useuapp.com/?p=1" true 0] 2
    ∧ (executeProcessInternal [AnalyticsRow.mk "useuapp.com" "" (some 5)] 0
        (RefresherState.mk (RedisState.mk [] [] none none none none)
          (LocalCache.mk none 0 none 0)
          [LinkRecord.mk 1 "useuapp.com" "https://useuapp.com/?p=1" true 0] 2)).2.links
      = [LinkRecord.mk 1 "useuapp.com" "https://useuapp.com/?p=1" false 0]
    ∧ (executeProcessInternal [AnalyticsRow.mk "useuapp.com" "" (some 5)] 0
        (RefresherState.mk (RedisState.mk [] [] none none none none)
          (LocalCache.mk none 0 none 0)
          [LinkRecord.mk 1 "useuapp.com" "https://useuapp.com/?p=1" true 0] 2)).2.rs
      = RedisState.mk [] [] none none none none
    ∧ (executeProcessInternal [AnalyticsRow.mk "useuapp.com" "" (some 5)] 0
        (RefresherState.mk (RedisState.mk [] [] none none none none)
          (LocalCache.mk none 0 none 0)
          [LinkRecord.mk 1 "useuapp.com" "https://useuapp.com/?p=1" true 0] 2)).2.lc
      = LocalCache.mk none 0 none 0 := by
  decide

/-- Claim C8 amended: when the aggregation result is empty the run
returns immediately and performs no writes at all; when the result is
non-empty but no row contributes a `bestByDomain` entry, the shared
cache keys and the process-local copies still keep their previous
values, but the run additionally reconciles the link store — scanning
`getAllLinks(1000, 0)`, the 1000 newest records by `created_at`, and
setting each scanned active record inactive (actives outside that
window are missed) — before returning. -/
theorem claim_C8 (data : List AnalyticsRow) (now : Nat) (st : RefresherState) :
    (data = [] → executeProcessInternal data now st = (none, st))
    ∧ (buildBestByDomain data = [] →
        (executeProcessInternal data now st).2.rs = st.rs
        ∧ (executeProcessInternal data now st).2.lc = st.lc)
    ∧ (¬ data = [] → buildBestByDomain data = [] →
        (executeProcessInternal data now st).2.links = deactivateScanned st.links
        ∧ (executeProcessInternal data now st).2.nextId = st.nextId) := by
  refine ⟨?_, ?_, ?_⟩
  · rintro rfl
    rfl
  · intro hb
    by_cases hd : data = []
    · subst hd
      exact ⟨rfl, rfl⟩
    · have hlen : ¬ data.length = 0 := fun hc => hd (List.length_eq_zero.mp hc)
      have hbl : ¬ 0 < (buildBestByDomain data).length := by simp [hb]
      constructor <;> simp [executeProcessInternal, hd, hlen, hbl]
  · intro hd hb
    have hlen : ¬ data.length = 0 := fun hc => hd (List.length_eq_zero.mp hc)
    have hbl : ¬ 0 < (buildBestByDomain data).length := by simp [hb]
    constructor <;>
      simp [executeProcessInternal, hd, hlen, hbl, hb, reconcileLinks]

/-- Witness for the amended claim C8: an empty aggregation result leaves
a concrete state fully unchanged. -/
theorem claim_C8_witness :
    executeProcessInternal [] 7
        (RefresherState.mk
          (RedisState.mk [(DOMAIN_COUNTER_KEY, 3)] [] none none none none)
          (LocalCache.mk none 0 none 0)
          [LinkRecord.mk 1 "useuapp.com" "https://useuapp.com/?p=1" true 0] 2)
      = (none, RefresherState.mk
          (RedisState.mk [(DOMAIN_COUNTER_KEY, 3)] [] none none none none)
          (LocalCache.mk none 0 none 0)
          [LinkRecord.mk 1 "useuapp.com" "https://useuapp.com/?p=1" true 0] 2) := by
  exact (claim_C8 [] 7
    (RefresherState.mk
      (RedisState.mk [(DOMAIN_COUNTER_KEY, 3)] [] none none none none)
      (LocalCache.mk none 0 none 0)
      [LinkRecord.mk 1 "useuapp.com" "https://useuapp.com/?p=1" true 0] 2)).1 rfl

/-! ## Claim C10 -/

/-- Claim C10: a successful refresh synchronously installs the newly
computed map and sorted list into the process-local cache with a fresh
timestamp at the moment of the shared-cache publication, so the local
copies equal the values just written to the shared cache, and any read
within the freshness window serves the new rankings from the local copy
regardless of the shared cache. -/
theorem claim_C10 (data : List AnalyticsRow) (now : Nat) (st : RefresherState)
    (h1 : ¬ data = []) (h2 : ¬ buildBestByDomain data = []) :
    (executeProcessInternal data now st).2.lc.bestLinksMapCache
        = (executeProcessInternal data now st).2.rs.bestLinksMapVal
    ∧ (executeProcessInternal data now st).2.lc.sortedDomainsCache
        = (executeProcessInternal data now st).2.rs.sortedDomainsVal
    ∧ (executeProcessInternal data now st).2.lc.bestLinksMapCache
        = some (buildBestByDomain data)
    ∧ (executeProcessInternal data now st).2.lc.sortedDomainsCache
        = some (sortByEcpmDesc ((buildBestByDomain data).map toSortedDomain))
    ∧ (executeProcessInternal data now st).2.lc.bestLinksMapCacheTime = now
    ∧ (executeProcessInternal data now st).2.lc.sortedDomainsCacheTime = now
    ∧ (∀ later f rs2, later - now < CACHE_TTL_MS →
        getSortedDomains later f (executeProcessInternal data now st).2.lc rs2
          = (sortByEcpmDesc ((buildBestByDomain data).map toSortedDomain),
             (executeProcessInternal data now st).2.lc)) := by
  have hlen : ¬ data.length = 0 := fun hc => h1 (List.length_eq_zero.mp hc)
  have hbl : 0 < (buildBestByDomain data).length := List.length_pos.mpr h2
  have hlc : (executeProcessInternal data now st).2.lc
      = LocalCache.mk (some (buildBestByDomain data)) now
          (some (sortByEcpmDesc ((buildBestByDomain data).map toSortedDomain)))
          now := by
    simp [executeProcessInternal, h1, hlen, hbl]
  have hsortlen :
      0 < (sortByEcpmDesc ((buildBestByDomain data).map toSortedDomain)).length := by
    rw [(sortByEcpmDesc_perm _).length_eq, List.length_map]
    exact hbl
  refine ⟨?_, ?_, ?_, ?_, ?_, ?_, ?_⟩
  · rw [hlc]
    simp [executeProcessInternal, h1, hlen, hbl]
  · rw [hlc]
    simp [executeProcessInternal, h1, hlen, hbl]
  · rw [hlc]
  · rw [hlc]
  · rw [hlc]
  · rw [hlc]
  · intro later f rs2 hfresh
    rw [hlc]
    unfold getSortedDomains
    simp only []
    rw [if_pos ⟨hsortlen, hfresh⟩]

/-- Witness for claim C10: immediately after a concrete refresh, a read
in the freshness window serves the new list from the local copy even
with an empty shared cache and a failing shared read. -/
theorem claim_C10_witness :
    (executeProcessInternal [AnalyticsRow.mk "B" "2" (some 10)] 42
        (RefresherState.mk (RedisState.mk [] [] none none none none)
          (LocalCache.mk none 0 none 0) [] 0)).2.lc.sortedDomainsCache
      = some [SortedDomain.mk "B" "https://B/?p=2" "2" 10]
    ∧ getSortedDomains 50 true
        (executeProcessInternal [AnalyticsRow.mk "B" "2" (some 10)] 42
          (RefresherState.mk (RedisState.mk [] [] none none none none)
            (LocalCache.mk none 0 none 0) [] 0)).2.lc
        (RedisState.mk [] [] none none none none)
      = ([SortedDomain.mk "B" "https://B/?p=2" "2" 10],
         (executeProcessInternal [AnalyticsRow.mk "B" "2" (some 10)] 42
          (RefresherState.mk (RedisState.mk [] [] none none none none)
            (LocalCache.mk none 0 none 0) [] 0)).2.lc) := by
  have h := claim_C10 [AnalyticsRow.mk "B" "2" (some 10)] 42
    (RefresherState.mk (RedisState.mk [] [] none none none none)
      (LocalCache.mk none 0 none 0) [] 0) (by decide) (by decide)
  constructor
  · exact h.2.2.2.1.trans (by decide)
  · exact (h.2.2.2.2.2.2 50 true (RedisState.mk [] [] none none none none)
      (by decide)).trans (by decide)

end Redirect
